import Mathlib

set_option autoImplicit false

namespace Adele

/-- A JavaScript-style configuration value, as found in ecosystem.config.js:
a string literal, a boolean literal, or a nested object of key-value fields. -/
inductive ConfigValue where
  | str (s : String)
  | bool (b : Bool)
  | obj (fields : List (String × ConfigValue))

/-- One process entry of the configuration: an ordered list of key-value
fields, exactly as the JS object literal lists them. -/
def Entry : Type := List (String × ConfigValue)

/-- First entry of apps in src/ecosystem.config.js (lines 3-18), transcribed
field by field in source order. -/
def cafeBotEntry : Entry :=
  [ ("name", ConfigValue.str "cafe_bot"),
    ("script", ConfigValue.str "/home/ubuntu/adele/venv/bin/python"),
    ("args", ConfigValue.str "/home/ubuntu/adele/main.py"),
    ("cwd", ConfigValue.str "/home/ubuntu/adele"),
    ("interpreter", ConfigValue.str "none"),
    ("env", ConfigValue.obj [("PYTHONUNBUFFERED", ConfigValue.str "1")]),
    ("autorestart", ConfigValue.bool true),
    ("watch", ConfigValue.bool false),
    ("max_memory_restart", ConfigValue.str "500M"),
    ("error_file", ConfigValue.str "/home/ubuntu/.pm2/logs/cafe-bot-error.log"),
    ("out_file", ConfigValue.str "/home/ubuntu/.pm2/logs/cafe-bot-out.log"),
    ("time", ConfigValue.bool true) ]

/-- Second entry of apps in src/ecosystem.config.js (lines 19-34), transcribed
field by field in source order. -/
def adminBotEntry : Entry :=
  [ ("name", ConfigValue.str "admin_bot"),
    ("script", ConfigValue.str "/home/ubuntu/adele/venv/bin/python"),
    ("args", ConfigValue.str "/home/ubuntu/adele/admin_bot.py"),
    ("cwd", ConfigValue.str "/home/ubuntu/adele"),
    ("interpreter", ConfigValue.str "none"),
    ("env", ConfigValue.obj [("PYTHONUNBUFFERED", ConfigValue.str "1")]),
    ("autorestart", ConfigValue.bool true),
    ("watch", ConfigValue.bool false),
    ("max_memory_restart", ConfigValue.str "500M"),
    ("error_file", ConfigValue.str "/home/ubuntu/.pm2/logs/admin-bot-error.log"),
    ("out_file", ConfigValue.str "/home/ubuntu/.pm2/logs/admin-bot-out.log"),
    ("time", ConfigValue.bool true) ]

/-- The apps array of src/ecosystem.config.js (lines 2-35): the whole
configuration set of this repository. -/
def ecosystemApps : List Entry := [cafeBotEntry, adminBotEntry]

/-- Look up a field of an entry by key (first occurrence, as a JS object). -/
def lookupField (e : Entry) (k : String) : Option ConfigValue :=
  match e with
  | [] => none
  | (k₀, v) :: rest => if k₀ == k then some v else lookupField rest k

/-- Read a string-valued field of an entry. -/
def getStr (e : Entry) (k : String) : Option String :=
  match lookupField e k with
  | some (ConfigValue.str s) => some s
  | _ => none

/-- Read a boolean-valued field of an entry, with a default when absent or
not a boolean. -/
def getBoolD (e : Entry) (k : String) (d : Bool) : Bool :=
  match lookupField e k with
  | some (ConfigValue.bool b) => b
  | _ => d

/-- Read a boolean-valued field of an entry, when present. -/
def getBool (e : Entry) (k : String) : Option Bool :=
  match lookupField e k with
  | some (ConfigValue.bool b) => some b
  | _ => none

/-- The string value of the name field of an entry, when present. -/
def entryName (e : Entry) : Option String := getStr e "name"

/-- The option keys appearing in an entry, in source order. -/
def entryKeys (e : Entry) : List String := e.map Prod.fst

/-- The env mapping of an entry as string pairs (empty when absent). -/
def getEnvPairs (e : Entry) : List (String × String) :=
  match lookupField e "env" with
  | some (ConfigValue.obj fields) =>
      fields.filterMap (fun kv =>
        match kv.2 with
        | ConfigValue.str s => some (kv.1, s)
        | _ => none)
  | _ => []

/-- Modelled from the spec: the recognized options of the configuration
format table in the spec (name, script, args, cwd, env, autorestart, watch,
max_memory_restart, error_file, out_file, time). -/
def recognizedOptions : List String :=
  [ "name", "script", "args", "cwd", "env", "autorestart", "watch",
    "max_memory_restart", "error_file", "out_file", "time" ]

/-- Modelled from the spec: the load-time validator of the design notes,
which rejects any field outside the recognized-options table rather than
silently ignoring it. Returns true exactly when every key of the entry is
recognized. -/
def validateEntryKeys (e : Entry) : Bool :=
  (entryKeys e).all (fun k => recognizedOptions.contains k)

/-- Modelled from the spec: the ProcessSpec data model of section 3, one
entry per managed process. The supervisor itself is an external tool, not
in this repository, so the record follows the spec wording. -/
structure ProcessSpec where
  name : String
  command : String
  arguments : String
  workingDirectory : String
  environment : List (String × String)
  autorestart : Bool
  maxMemoryBytes : Option Nat
  stdoutPath : String
  stderrPath : String
  watchFilesystem : Bool
  deriving DecidableEq

instance : Inhabited ProcessSpec :=
  ⟨{ name := "", command := "", arguments := "", workingDirectory := "",
     environment := [], autorestart := false, maxMemoryBytes := none,
     stdoutPath := "", stderrPath := "", watchFilesystem := false }⟩

/-- Modelled from the spec: the error kind surfaced at load time, fatal to
startup, on malformed entries or duplicate names. -/
inductive ConfigError where
  | malformed (field : String)
  | duplicateName
  deriving DecidableEq

/-- The numeric value of a decimal digit character, when it is one. -/
def charDigit (c : Char) : Option Nat :=
  if c.isDigit then some (c.toNat - 48) else none

/-- Parse a nonempty all-digit character list as a decimal number. -/
def parseDigits : List Char → Option Nat
  | [] => none
  | cs =>
    cs.foldl
      (fun acc c =>
        match acc, charDigit c with
        | some n, some d => some (n * 10 + d)
        | _, _ => none)
      (some 0)

/-- Modelled from the spec: parse a memory-ceiling string such as 500M into
a byte count (the optional maxMemoryBytes ceiling of section 3): a decimal
number of megabytes when suffixed with M, else a plain byte count. -/
def parseMemoryLimit (s : String) : Option Nat :=
  match s.data.getLast? with
  | some 'M' => (parseDigits s.data.dropLast).map (fun n => n * 1048576)
  | _ => parseDigits s.data

/-- Modelled from the spec: read the optional max_memory_restart field of an
entry, failing with a ConfigError when it is present but malformed. -/
def parseMaxMemory (e : Entry) : Except ConfigError (Option Nat) :=
  match lookupField e "max_memory_restart" with
  | none => Except.ok none
  | some (ConfigValue.str s) =>
      match parseMemoryLimit s with
      | some b => Except.ok (some b)
      | none => Except.error (ConfigError.malformed "max_memory_restart")
  | some _ => Except.error (ConfigError.malformed "max_memory_restart")

/-- Modelled from the spec: build one ProcessSpec from one entry, failing
with a ConfigError on a malformed entry (a required field missing or of the
wrong shape). -/
def parseEntry (e : Entry) : Except ConfigError ProcessSpec :=
  match getStr e "name", getStr e "script", getStr e "args", getStr e "cwd",
        getStr e "error_file", getStr e "out_file" with
  | some n, some script, some args, some cwd, some errFile, some outFile =>
      match parseMaxMemory e with
      | Except.ok maxMem =>
          Except.ok
            { name := n, command := script, arguments := args,
              workingDirectory := cwd, environment := getEnvPairs e,
              autorestart := getBoolD e "autorestart" false,
              maxMemoryBytes := maxMem,
              stdoutPath := outFile, stderrPath := errFile,
              watchFilesystem := getBoolD e "watch" false }
      | Except.error err => Except.error err
  | _, _, _, _, _, _ => Except.error (ConfigError.malformed "required")

/-- Modelled from the spec: parse every entry of the source in order,
propagating the first ConfigError. -/
def parseEntries : List Entry → Except ConfigError (List ProcessSpec)
  | [] => Except.ok []
  | e :: es =>
    match parseEntry e, parseEntries es with
    | Except.ok s, Except.ok ss => Except.ok (s :: ss)
    | Except.error err, _ => Except.error err
    | Except.ok _, Except.error err => Except.error err

/-- Modelled from the spec: whether two ProcessSpecs of the list share a
name (the duplicate-name condition of loadConfiguration). -/
def hasDupNames : List ProcessSpec → Bool
  | [] => false
  | s :: ss => ss.any (fun t => t.name == s.name) || hasDupNames ss

/-- Modelled from the spec: loadConfiguration parses the declarative input
into a set of ProcessSpecs and fails with a ConfigError on malformed entries
or duplicate names; on failure no ProcessSpec set is produced. -/
def loadConfiguration (src : List Entry) : Except ConfigError (List ProcessSpec) :=
  match parseEntries src with
  | Except.error err => Except.error err
  | Except.ok specs =>
      if hasDupNames specs then Except.error ConfigError.duplicateName
      else Except.ok specs

/-- The ProcessSpec parsed from the cafe_bot entry of the configuration. -/
def cafeSpec : ProcessSpec := ((parseEntry cafeBotEntry).toOption).getD default

/-- The ProcessSpec parsed from the admin_bot entry of the configuration. -/
def adminSpec : ProcessSpec := ((parseEntry adminBotEntry).toOption).getD default

/-- The ProcessSpec set loaded from the apps array of this repository. -/
def loadedSpecs : List ProcessSpec := ((loadConfiguration ecosystemApps).toOption).getD []

/-- Modelled from the spec: the lifecycle status of the live process behind
one ProcessSpec. -/
inductive ProcStatus where
  | running
  | stopped
  deriving DecidableEq

/-- Modelled from the spec: the supervisor state kept for one managed
process: whether it is currently live and how many relaunch events it has
undergone. -/
structure ProcState where
  status : ProcStatus
  restarts : Nat
  deriving DecidableEq

/-- Modelled from the spec: destroy and recreate the live process on a
restart event: the process becomes running again with one more relaunch
recorded. -/
def relaunch (st : ProcState) : ProcState :=
  { status := ProcStatus.running, restarts := st.restarts + 1 }

/-- Modelled from the spec: onExit of section 4.1: if autorestart is true
the process is relaunched (after a short delay, abstracted here); otherwise
it is marked stopped and left stopped. -/
def onExit (spec : ProcessSpec) (st : ProcState) (_exitCode : Int) : ProcState :=
  if spec.autorestart then relaunch st
  else { status := ProcStatus.stopped, restarts := st.restarts }

/-- The exit code observed after the termination signal the supervisor
sends on a memory-ceiling violation. -/
def termSignalExitCode : Int := -9

/-- Modelled from the spec: onMemoryExceeded of section 4.1: send a
termination signal to the process, which triggers onExit and hence a
subsequent restart exactly when autorestart is true. -/
def onMemoryExceeded (spec : ProcessSpec) (st : ProcState) : ProcState :=
  onExit spec st termSignalExitCode

/-- Modelled from the spec: one memory sample of the monitor loop: when the
spec has a ceiling and the resident memory of the running process exceeds
it, onMemoryExceeded fires; otherwise nothing changes. -/
def monitorMemory (spec : ProcessSpec) (st : ProcState) (residentMem : Nat) : ProcState :=
  match spec.maxMemoryBytes with
  | some limit =>
      if limit < residentMem && st.status == ProcStatus.running then
        onMemoryExceeded spec st
      else st
  | none => st

/-- Modelled from the spec: the observable events of the monitor loop for
one managed process: the process exited (with a code), a resident-memory
sample was taken, or a file changed under the working directory. -/
inductive Event where
  | exited (code : Int)
  | memSample (residentMem : Nat)
  | fileChanged

/-- Modelled from the spec: how the supervisor updates the state of one
managed process on one event. Events concern the live process, so a stopped
process produces and receives none of them. -/
def stepProc (spec : ProcessSpec) (st : ProcState) (ev : Event) : ProcState :=
  if st.status == ProcStatus.stopped then st
  else
    match ev with
    | Event.exited code => onExit spec st code
    | Event.memSample m => monitorMemory spec st m
    | Event.fileChanged => if spec.watchFilesystem then relaunch st else st

/-- Modelled from the spec: the supervisor: the loaded ProcessSpecs and the
per-process state registry, keyed by process name. -/
structure Supervisor where
  specs : List ProcessSpec
  states : String → ProcState

/-- Modelled from the spec: the supervisor right after startup: every
ProcessSpec is loaded and its process created, with no restarts yet. -/
def initSupervisor (specs : List ProcessSpec) : Supervisor :=
  { specs := specs, states := fun _ => { status := ProcStatus.running, restarts := 0 } }

/-- Find the ProcessSpec of a given name in the loaded set. -/
def findSpec (specs : List ProcessSpec) (n : String) : Option ProcessSpec :=
  specs.find? (fun s => s.name == n)

/-- Modelled from the spec: the supervisor reaction when the process named n
exits (for instance because it was killed externally): only the state of
that ProcessSpec is updated, through onExit of its spec. -/
def handleExit (sup : Supervisor) (n : String) (code : Int) : Supervisor :=
  match findSpec sup.specs n with
  | some spec =>
      { sup with
        states := fun m =>
          if m = n then stepProc spec (sup.states n) (Event.exited code)
          else sup.states m }
  | none => sup

/-- The four log-file destinations declared by the configuration: the
error_file and out_file fields of both entries. -/
def configLogPaths : List (Option String) :=
  ecosystemApps.map (fun e => getStr e "error_file")
    ++ ecosystemApps.map (fun e => getStr e "out_file")

/-- A ProcessSpec whose parse succeeds carries exactly the string found in
the name field of its entry. -/
theorem parseEntry_name {e : Entry} {s : ProcessSpec}
    (h : parseEntry e = Except.ok s) : entryName e = some s.name := by
  unfold parseEntry at h
  split at h
  · rename_i n script args cwd errFile outFile hn hs ha hc he ho
    split at h
    · injection h with h
      subst h
      simpa [entryName] using hn
    · exact Except.noConfusion h
  · exact Except.noConfusion h

/-- When every entry parses, the name fields of the source and the names of
the produced ProcessSpecs coincide, in order. -/
theorem parseEntries_names : ∀ {src : List Entry} {specs : List ProcessSpec},
    parseEntries src = Except.ok specs →
    src.filterMap entryName = specs.map ProcessSpec.name := by
  intro src
  induction src with
  | nil =>
    intro specs h
    simp [parseEntries] at h
    subst h
    rfl
  | cons e es ih =>
    intro specs h
    unfold parseEntries at h
    split at h
    · rename_i s ss h1 h2
      injection h with h
      subst h
      simp [List.filterMap_cons, parseEntry_name h1, ih h2]
    · exact Except.noConfusion h
    · exact Except.noConfusion h

/-- When the boolean duplicate-name check fails to fire, the names of the
ProcessSpec list are pairwise distinct. -/
theorem nodup_of_not_hasDupNames : ∀ {specs : List ProcessSpec},
    hasDupNames specs = false → (specs.map ProcessSpec.name).Nodup := by
  intro specs
  induction specs with
  | nil => intro _; simp
  | cons s ss ih =>
    intro h
    unfold hasDupNames at h
    rw [Bool.or_eq_false_iff] at h
    obtain ⟨h1, h2⟩ := h
    simp only [List.map_cons, List.nodup_cons]
    refine ⟨?_, ih h2⟩
    intro hmem
    rw [List.mem_map] at hmem
    obtain ⟨t, ht, hname⟩ := hmem
    have h3 := List.any_eq_false.mp h1 t ht
    simp [hname] at h3

/-- A stopped process is a fixpoint of the per-process step function: no
event relaunches it. -/
theorem stepProc_stopped (spec : ProcessSpec) (st : ProcState) (ev : Event)
    (h : st.status = ProcStatus.stopped) : stepProc spec st ev = st := by
  simp [stepProc, h]

/-- A stopped process stays stopped across any sequence of events. -/
theorem foldl_stepProc_stopped (spec : ProcessSpec) (evs : List Event) (st : ProcState)
    (h : st.status = ProcStatus.stopped) : evs.foldl (stepProc spec) st = st := by
  induction evs with
  | nil => rfl
  | cons ev evs ih => rw [List.foldl_cons, stepProc_stopped spec st ev h]; exact ih

/-- C1: every configuration set accepted by loadConfiguration has pairwise
distinct ProcessSpec names, and the two entries of this configuration carry
distinct name fields. -/
theorem C1_loaded_names_unique :
    (∀ (src : List Entry) (specs : List ProcessSpec),
        loadConfiguration src = Except.ok specs → (specs.map ProcessSpec.name).Nodup)
    ∧ entryName cafeBotEntry ≠ entryName adminBotEntry := by
  constructor
  · intro src specs h
    unfold loadConfiguration at h
    split at h
    · exact Except.noConfusion h
    · split at h
      · exact Except.noConfusion h
      · rename_i specs0 hps hd
        injection h with h
        subst h
        exact nodup_of_not_hasDupNames (by simpa using hd)
  · decide

/-- Witness for C1: loading the apps array of this repository succeeds and
the resulting ProcessSpec names are pairwise distinct. -/
theorem C1_loaded_names_unique_witness :
    loadConfiguration ecosystemApps = Except.ok loadedSpecs ∧
      (loadedSpecs.map ProcessSpec.name).Nodup :=
  ⟨rfl, C1_loaded_names_unique.1 ecosystemApps loadedSpecs rfl⟩

/-- C2: the configuration has exactly two process entries, named cafe_bot
and admin_bot, both with autorestart true and max_memory_restart 500M. -/
theorem C2_config_shape :
    ecosystemApps.length = 2 ∧
    ecosystemApps.map entryName = [some "cafe_bot", some "admin_bot"] ∧
    ecosystemApps.all (fun e => getBoolD e "autorestart" false) = true ∧
    ecosystemApps.map (fun e => getStr e "max_memory_restart")
      = [some "500M", some "500M"] := by decide

/-- Counterexample for C3: both entries of the configuration carry the
interpreter key, which is outside the recognized-options table of the spec,
so not every option key of each entry is recognized. -/
theorem C3_counterexample :
    (entryKeys cafeBotEntry).contains "interpreter" = true ∧
    (entryKeys adminBotEntry).contains "interpreter" = true ∧
    recognizedOptions.contains "interpreter" = false := by decide

/-- C3 amended: every option key of each process entry is either one of the
recognized options of the spec table or the extra key interpreter, and a
load-time validator restricted to the spec table rejects both entries of
this configuration. -/
theorem C3_amended_keys_recognized :
    (ecosystemApps.all fun e =>
      (entryKeys e).all fun k => recognizedOptions.contains k || k == "interpreter") = true ∧
    ecosystemApps.all (fun e => !validateEntryKeys e) = true := by decide

/-- C4: a configuration source containing two entries with the same name
value makes loadConfiguration fail with a ConfigError, so no ProcessSpec set
is produced. -/
theorem C4_duplicate_names_rejected {src : List Entry} {n : String}
    (h : 2 ≤ (src.filterMap entryName).count n) :
    ∃ err, loadConfiguration src = Except.error err := by
  cases hps : parseEntries src with
  | error err => exact ⟨err, by simp [loadConfiguration, hps]⟩
  | ok specs =>
    have hnames := parseEntries_names hps
    rw [hnames] at h
    have hnotnodup : ¬ (specs.map ProcessSpec.name).Nodup := by
      intro hnd
      have := List.nodup_iff_count_le_one.mp hnd n
      omega
    cases hd : hasDupNames specs with
    | false => exact absurd (nodup_of_not_hasDupNames hd) hnotnodup
    | true =>
      exact ⟨ConfigError.duplicateName, by simp [loadConfiguration, hps, hd]⟩

/-- Witness for C4: a source listing the cafe_bot entry twice has the name
cafe_bot twice and fails to load. -/
theorem C4_duplicate_names_rejected_witness :
    2 ≤ ((([cafeBotEntry, cafeBotEntry] : List Entry).filterMap entryName).count "cafe_bot") ∧
    ∃ err, loadConfiguration [cafeBotEntry, cafeBotEntry] = Except.error err :=
  ⟨by decide, @C4_duplicate_names_rejected [cafeBotEntry, cafeBotEntry] "cafe_bot" (by decide)⟩

/-- C5: a running process whose spec has autorestart true is relaunched by
the supervisor when it exits: afterwards it is running again with exactly
one more restart recorded. -/
theorem C5_autorestart_relaunches (spec : ProcessSpec) (st : ProcState) (code : Int)
    (hauto : spec.autorestart = true) (hrun : st.status = ProcStatus.running) :
    stepProc spec st (Event.exited code)
      = { status := ProcStatus.running, restarts := st.restarts + 1 } := by
  simp [stepProc, hrun, onExit, hauto, relaunch]

/-- Witness for C5: the cafe_bot spec of this configuration has autorestart
true, and its running process is relaunched after an exit. -/
theorem C5_autorestart_relaunches_witness :
    stepProc cafeSpec { status := ProcStatus.running, restarts := 0 } (Event.exited 1)
      = { status := ProcStatus.running, restarts := 1 } :=
  C5_autorestart_relaunches cafeSpec { status := ProcStatus.running, restarts := 0 } 1 rfl rfl

/-- C6: a running process whose spec has autorestart false is marked stopped
when it exits, records no restart, and stays in that stopped state across
any further sequence of events. -/
theorem C6_no_autorestart_stays_stopped (spec : ProcessSpec) (st : ProcState)
    (code : Int) (evs : List Event)
    (hauto : spec.autorestart = false) (hrun : st.status = ProcStatus.running) :
    (stepProc spec st (Event.exited code)).status = ProcStatus.stopped ∧
    (stepProc spec st (Event.exited code)).restarts = st.restarts ∧
    evs.foldl (stepProc spec) (stepProc spec st (Event.exited code))
      = stepProc spec st (Event.exited code) := by
  have h1 : stepProc spec st (Event.exited code)
      = { status := ProcStatus.stopped, restarts := st.restarts } := by
    simp [stepProc, hrun, onExit, hauto]
  rw [h1]
  exact ⟨rfl, rfl, foldl_stepProc_stopped spec evs _ rfl⟩

/-- Witness for C6: a variant of the cafe_bot spec with autorestart false is
left stopped after an exit and stays stopped across later events. -/
theorem C6_no_autorestart_stays_stopped_witness :
    (stepProc { cafeSpec with autorestart := false }
        { status := ProcStatus.running, restarts := 5 } (Event.exited 0)).status
        = ProcStatus.stopped ∧
    (stepProc { cafeSpec with autorestart := false }
        { status := ProcStatus.running, restarts := 5 } (Event.exited 0)).restarts = 5 ∧
    ([Event.exited 0, Event.memSample 999999999, Event.fileChanged].foldl
        (stepProc { cafeSpec with autorestart := false })
        (stepProc { cafeSpec with autorestart := false }
          { status := ProcStatus.running, restarts := 5 } (Event.exited 0)))
      = stepProc { cafeSpec with autorestart := false }
          { status := ProcStatus.running, restarts := 5 } (Event.exited 0) :=
  C6_no_autorestart_stays_stopped { cafeSpec with autorestart := false }
    { status := ProcStatus.running, restarts := 5 } 0
    [Event.exited 0, Event.memSample 999999999, Event.fileChanged] rfl rfl

/-- C7: when a running process with a memory ceiling exceeds it, the memory
monitor acts exactly as the termination-signal exit handler does, and the
process is running afterwards precisely when autorestart is true. -/
theorem C7_memory_ceiling_restarts (spec : ProcessSpec) (st : ProcState)
    (limit residentMem : Nat)
    (hceil : spec.maxMemoryBytes = some limit) (hover : limit < residentMem)
    (hrun : st.status = ProcStatus.running) :
    monitorMemory spec st residentMem = onExit spec st termSignalExitCode ∧
    ((monitorMemory spec st residentMem).status = ProcStatus.running
      ↔ spec.autorestart = true) := by
  have h1 : monitorMemory spec st residentMem = onMemoryExceeded spec st := by
    simp [monitorMemory, hceil, hover, hrun]
  refine ⟨h1, ?_⟩
  rw [h1]
  unfold onMemoryExceeded onExit
  cases hauto : spec.autorestart <;> simp [relaunch]

/-- Witness for C7: the cafe_bot spec has the 500M ceiling, a resident
memory of 600000000 bytes exceeds it, and the process is terminated and
relaunched since its autorestart is true. -/
theorem C7_memory_ceiling_restarts_witness :
    (monitorMemory cafeSpec { status := ProcStatus.running, restarts := 0 } 600000000
      = onExit cafeSpec { status := ProcStatus.running, restarts := 0 } termSignalExitCode) ∧
    ((monitorMemory cafeSpec { status := ProcStatus.running, restarts := 0 } 600000000).status
        = ProcStatus.running ↔ cafeSpec.autorestart = true) :=
  C7_memory_ceiling_restarts cafeSpec { status := ProcStatus.running, restarts := 0 }
    524288000 600000000 rfl (by decide) rfl

/-- C8: handling the exit of one named process never touches the state of a
differently named ProcessSpec, and under the loaded configuration of this
repository killing either process yields exactly one relaunch of it and
zero relaunches of the other. -/
theorem C8_restart_isolated (n m : String) (sup : Supervisor) (code : Int)
    (hne : m ≠ n) :
    ((handleExit sup n code).states m = sup.states m) ∧
    (((handleExit (initSupervisor loadedSpecs) "cafe_bot" code).states "cafe_bot").restarts = 1 ∧
     ((handleExit (initSupervisor loadedSpecs) "cafe_bot" code).states "admin_bot").restarts = 0 ∧
     ((handleExit (initSupervisor loadedSpecs) "admin_bot" code).states "admin_bot").restarts = 1 ∧
     ((handleExit (initSupervisor loadedSpecs) "admin_bot" code).states "cafe_bot").restarts = 0) := by
  constructor
  · unfold handleExit
    cases findSpec sup.specs n with
    | none => rfl
    | some spec => simp [hne]
  · exact ⟨rfl, rfl, rfl, rfl⟩

/-- Witness for C8: with the loaded configuration, killing cafe_bot leaves
the state of admin_bot unchanged, and each kill relaunches exactly the
killed process. -/
theorem C8_restart_isolated_witness :
    ((handleExit (initSupervisor loadedSpecs) "cafe_bot" 1).states "admin_bot"
      = (initSupervisor loadedSpecs).states "admin_bot") ∧
    (((handleExit (initSupervisor loadedSpecs) "cafe_bot" 1).states "cafe_bot").restarts = 1 ∧
     ((handleExit (initSupervisor loadedSpecs) "cafe_bot" 1).states "admin_bot").restarts = 0 ∧
     ((handleExit (initSupervisor loadedSpecs) "admin_bot" 1).states "admin_bot").restarts = 1 ∧
     ((handleExit (initSupervisor loadedSpecs) "admin_bot" 1).states "cafe_bot").restarts = 0) :=
  C8_restart_isolated "cafe_bot" "admin_bot" (initSupervisor loadedSpecs) 1 (by decide)

/-- C9: the watch field is false in both entries of the configuration, the
parsed specs have watchFilesystem false, and a file-change event never
changes the state of either managed process. -/
theorem C9_watch_disabled :
    getBool cafeBotEntry "watch" = some false ∧
    getBool adminBotEntry "watch" = some false ∧
    cafeSpec.watchFilesystem = false ∧
    adminSpec.watchFilesystem = false ∧
    (∀ st : ProcState, stepProc cafeSpec st Event.fileChanged = st) ∧
    (∀ st : ProcState, stepProc adminSpec st Event.fileChanged = st) := by
  have hwc : cafeSpec.watchFilesystem = false := rfl
  have hwa : adminSpec.watchFilesystem = false := rfl
  refine ⟨by decide, by decide, hwc, hwa, ?_, ?_⟩ <;>
    intro st <;> cases hst : st.status <;> simp [stepProc, hst, hwc, hwa]

/-- C10: the four log file destinations of the configuration, the
error_file and out_file of both entries, are pairwise distinct, both at the
entry level and in the parsed ProcessSpecs. -/
theorem C10_log_paths_distinct :
    configLogPaths.Nodup ∧ configLogPaths.length = 4 ∧
    ([cafeSpec.stderrPath, cafeSpec.stdoutPath,
      adminSpec.stderrPath, adminSpec.stdoutPath] : List String).Nodup := by decide

end Adele
